import Mathlib

/-!
Shallow embedding of the Pixel Buddy server (src/server.js) and its
PostgreSQL schema (pets / memories / ai_brain tables, the
`trigger_update_last_seen` trigger and the CHECK / UNIQUE constraints).

Modelling conventions:
* Database time (`NOW()`) is an explicit `Nat` parameter `now` threaded into
  every handler; the schema trigger `update_last_seen` fires on every UPDATE
  of a `pets` row, so every row update also sets `last_seen := now`.
* `Math.random()`-driven character draws are modelled by a stream
  `rng : Nat → Nat`; draw `i` yields alphabet index `rng i % 32`, matching
  `Math.floor(Math.random() * chars.length)` with `chars.length = 32`.
* Each Express handler becomes a pure function from its request data and the
  current database to a result record holding the updated database, the HTTP
  status and the JSON payload.
-/

namespace PixelBuddy

/-- Clamping used both by the SQL `GREATEST(0, LEAST(100, _))` expressions in
the action endpoint and by the JS `clamp` in the sync endpoint. -/
def clamp (x : Int) : Int := max 0 (min 100 x)

/-- A row of the `pets` table (columns used by the modelled endpoints). -/
structure Pet where
  id : Nat
  user_id : String
  name : String
  hunger : Int
  happiness : Int
  energy : Int
  hygiene : Int
  sprite : Nat
  world_code : Option String
  world_open : Bool
  visits_count : Int
  last_seen : Nat
  last_fed : Nat
  last_played : Nat
  last_cleaned : Nat
  last_slept : Nat
deriving Repr, DecidableEq

/-- A row of the `memories` table. -/
structure Memory where
  pet_id : Nat
  memory_type : String
  content : String
  created_at : Nat
deriving Repr, DecidableEq

/-- A row of the `ai_brain` table (columns the talk endpoint writes). -/
structure AiRecord where
  prompt : String
  response : String
deriving Repr, DecidableEq

/-- The database state: the tables touched by the modelled endpoints, plus the
`SERIAL` counter feeding `pets.id`. -/
structure Db where
  pets : List Pet
  memories : List Memory
  ai_brain : List AiRecord
  next_pet_id : Nat
deriving Repr, DecidableEq

/-- HTTP statuses the modelled handlers produce. -/
inductive Status where
  | ok200
  | badRequest400
  | notFound404
  | serverError500
deriving Repr, DecidableEq

/-- Result of a pet-returning handler: updated database, status, payload. -/
structure ActionResult where
  db : Db
  status : Status
  pet : Option Pet
deriving Repr, DecidableEq

/-- `SELECT * FROM pets WHERE id = $1` (first matching row). -/
def findPet (db : Db) (id : Nat) : Option Pet :=
  db.pets.find? (fun p => p.id == id)

/-- `UPDATE pets SET ... WHERE id = $n`: applies `f` to every row whose id
matches; the schema trigger `update_last_seen` additionally sets
`last_seen = NOW()` on every updated row. -/
def updatePet (db : Db) (id : Nat) (f : Pet → Pet) (now : Nat) : Db :=
  { db with
    pets := db.pets.map (fun p => if p.id == id then { f p with last_seen := now } else p) }

/-! ### GET /api/pet/:userId (get or create) -/

/-- Handler for `GET /api/pet/:userId`: returns the pet for `userId`, creating
it (stats 50, name Buddy, sprite 0, birth memory) when absent. -/
def getOrCreatePet (userId : String) (now : Nat) (db : Db) : ActionResult :=
  match db.pets.find? (fun p => p.user_id == userId) with
  | some p => ⟨db, .ok200, some p⟩
  | none =>
    let p : Pet :=
      { id := db.next_pet_id, user_id := userId, name := "Buddy",
        hunger := 50, happiness := 50, energy := 50, hygiene := 50, sprite := 0,
        world_code := none, world_open := false, visits_count := 0,
        last_seen := now, last_fed := now, last_played := now,
        last_cleaned := now, last_slept := now }
    let db1 : Db :=
      { db with
        pets := db.pets ++ [p],
        next_pet_id := db.next_pet_id + 1,
        memories := db.memories ++ [⟨p.id, "action", "Born into this world!", now⟩] }
    ⟨db1, .ok200, some p⟩

/-! ### POST /api/pet/:id/action -/

/-- One row of the action delta table in the handler: the optional stat deltas
and which `last_*` timestamp column the action touches. -/
structure ActionDelta where
  hunger : Option Int := none
  happiness : Option Int := none
  energy : Option Int := none
  hygiene : Option Int := none
  fed : Bool := false
  played : Bool := false
  cleaned : Bool := false
  slept : Bool := false
deriving Repr, DecidableEq

/-- The `updates` table of the action handler. -/
def actionTable (a : String) : Option ActionDelta :=
  if a = "feed" then some { hunger := some 30, fed := true }
  else if a = "play" then some { happiness := some 20, energy := some (-10), played := true }
  else if a = "clean" then some { hygiene := some 40, cleaned := true }
  else if a = "sleep" then some { energy := some 30, slept := true }
  else none

/-- The SQL SET clauses built by the action handler: each present delta is
applied through `GREATEST(0, LEAST(100, stat + delta))`, and the matching
`last_*` column is set to `NOW()`. -/
def applyDelta (d : ActionDelta) (now : Nat) (p : Pet) : Pet :=
  { p with
    hunger := match d.hunger with | some v => clamp (p.hunger + v) | none => p.hunger,
    happiness := match d.happiness with | some v => clamp (p.happiness + v) | none => p.happiness,
    energy := match d.energy with | some v => clamp (p.energy + v) | none => p.energy,
    hygiene := match d.hygiene with | some v => clamp (p.hygiene + v) | none => p.hygiene,
    last_fed := if d.fed then now else p.last_fed,
    last_played := if d.played then now else p.last_played,
    last_cleaned := if d.cleaned then now else p.last_cleaned,
    last_slept := if d.slept then now else p.last_slept }

/-- The memory content string interpolated by the action handler. -/
def actionMemoryContent (a : String) : String :=
  "Owner " ++
    (if a = "feed" then "fed"
     else if a = "play" then "played with"
     else if a = "clean" then "cleaned"
     else "put to sleep") ++ " me!"

/-- Handler for `POST /api/pet/:id/action`. An unknown action returns 400
before any query. Otherwise the UPDATE runs (a no-op when no row matches);
the subsequent INSERT into `memories` violates the
`pet_id REFERENCES pets(id)` foreign key when the pet does not exist, which
the catch block turns into a 500. -/
def petAction (id : Nat) (a : String) (now : Nat) (db : Db) : ActionResult :=
  match actionTable a with
  | none => ⟨db, .badRequest400, none⟩
  | some d =>
    let db1 := updatePet db id (applyDelta d now) now
    match findPet db1 id with
    | none => ⟨db1, .serverError500, none⟩
    | some p1 =>
      let db2 : Db :=
        { db1 with memories := db1.memories ++ [⟨id, "action", actionMemoryContent a, now⟩] }
      ⟨db2, .ok200, some p1⟩

/-! ### POST /api/pet/:id/rename -/

/-- Handler for `POST /api/pet/:id/rename`: rejects empty or over-20-character
names with 400; otherwise runs the UPDATE and answers 200 with whatever row
the UPDATE returned (`undefined`, i.e. `none`, when the pet is missing). -/
def renamePet (id : Nat) (nm : String) (now : Nat) (db : Db) : ActionResult :=
  if nm.length = 0 || 20 < nm.length then ⟨db, .badRequest400, none⟩
  else
    let db1 := updatePet db id (fun p => { p with name := nm }) now
    ⟨db1, .ok200, findPet db1 id⟩

/-! ### POST /api/pet/:id/sync -/

/-- Handler for `POST /api/pet/:id/sync`: clamps each submitted stat, runs the
UPDATE, answers 404 when the UPDATE matched no row and 200 otherwise (payload
is `{success: true}`, no pet). -/
def syncPet (id : Nat) (hu ha en hy : Int) (now : Nat) (db : Db) : ActionResult :=
  let db1 := updatePet db id
    (fun p => { p with hunger := clamp hu, happiness := clamp ha,
                       energy := clamp en, hygiene := clamp hy }) now
  match findPet db id with
  | none => ⟨db1, .notFound404, none⟩
  | some _ => ⟨db1, .ok200, none⟩

/-! ### POST /api/pet/:id/world and GET /api/world/:code -/

/-- The code alphabet: uppercase letters and digits excluding `0,1,O,I`. -/
def worldChars : List Char := "ABCDEFGHJKLMNPQRSTUVWXYZ23456789".toList

/-- Errors thrown inside the world-open handler's generation loop. -/
inductive WorldGenError where
  | generationExhausted
deriving Repr, DecidableEq

/-- One candidate code: the loop `for i in 0..5` appends a dash before the
draw at `i = 4`, each draw picking `chars[Math.floor(Math.random() * 32)]`. -/
def genCode (f : Nat → Nat) : String :=
  String.mk
    [worldChars.getD (f 0 % 32) 'A', worldChars.getD (f 1 % 32) 'A',
     worldChars.getD (f 2 % 32) 'A', worldChars.getD (f 3 % 32) 'A', '-',
     worldChars.getD (f 4 % 32) 'A', worldChars.getD (f 5 % 32) 'A']

/-- All non-NULL `world_code` values currently stored in `pets`, i.e. the
codes the `SELECT 1 FROM pets WHERE world_code = $1` check can find. -/
def existingCodes (db : Db) : List String :=
  db.pets.filterMap (fun p => p.world_code)

/-- The retry loop of the world-open handler: candidate `k` is built from rng
draws `6k .. 6k+5`; a candidate colliding with any stored code triggers a
retry; the JS `attempts > 100` guard means exactly 100 candidates are checked
before the handler throws. -/
def genLoopGo (db : Db) (rng : Nat → Nat) : Nat → Nat → Except WorldGenError String
  | _, 0 => .error .generationExhausted
  | k, fuel + 1 =>
    let c := genCode (fun i => rng (6 * k + i))
    if (existingCodes db).contains c then genLoopGo db rng (k + 1) fuel
    else .ok c

/-- World-code generation as run by the open-world handler. -/
def generateWorldCode (db : Db) (rng : Nat → Nat) : Except WorldGenError String :=
  genLoopGo db rng 0 100

/-- Result of the world-toggle handler: updated database, status, and the
`world_code` field of the returned row (when any row was returned). -/
structure WorldResult where
  db : Db
  status : Status
  world_code : Option String
deriving Repr, DecidableEq

/-- Handler for `POST /api/pet/:id/world`: when opening, generate a fresh
code (500 if generation exhausts its attempts); store `world_open` and
`world_code` (NULL when closing); answer with the updated row, or with an
empty body when no row matched. -/
def openWorld (id : Nat) (op : Bool) (rng : Nat → Nat) (now : Nat) (db : Db) : WorldResult :=
  let codeE : Except WorldGenError (Option String) :=
    if op then (generateWorldCode db rng).map some else .ok none
  match codeE with
  | .error _ => ⟨db, .serverError500, none⟩
  | .ok code =>
    let db1 := updatePet db id (fun p => { p with world_open := op, world_code := code }) now
    match findPet db1 id with
    | some p => ⟨db1, .ok200, p.world_code⟩
    | none => ⟨db1, .ok200, none⟩

/-- Handler for `GET /api/world/:code`: select the pet whose `world_code`
matches with `world_open = TRUE`; 404 when none; otherwise answer with the
selected row and increment its `visits_count`. -/
def visitWorld (code : String) (now : Nat) (db : Db) : ActionResult :=
  match db.pets.find? (fun p => p.world_code == some code && p.world_open) with
  | none => ⟨db, .notFound404, none⟩
  | some p =>
    let db1 := updatePet db p.id (fun q => { q with visits_count := q.visits_count + 1 }) now
    ⟨db1, .ok200, some p⟩

/-! ### POST /api/pet/:id/talk -/

/-- Handler for `POST /api/pet/:id/talk`. The Ollama call is abstracted as
`ollama : Option String` (`none` = unavailable, triggering the canned
fallback without any write; `some r` = the AI response, recorded in
`ai_brain` and as a memory). A missing pet answers 404 before any call. -/
def talkPet (id : Nat) (message : String) (ollama : Option String) (now : Nat)
    (db : Db) : ActionResult :=
  match findPet db id with
  | none => ⟨db, .notFound404, none⟩
  | some _ =>
    match ollama with
    | some aiResponse =>
      let db1 : Db :=
        { db with
          ai_brain := db.ai_brain ++ [⟨message, aiResponse⟩],
          memories := db.memories ++
            [⟨id, "action",
              "Owner said: \"" ++ message ++ "\". I replied: \"" ++ aiResponse ++ "\"",
              now⟩] }
      ⟨db1, .ok200, none⟩
    | none => ⟨db, .ok200, none⟩

/-! ### Helper lemmas -/

theorem clamp_nonneg (x : Int) : 0 ≤ clamp x := le_max_left 0 _

theorem clamp_le_100 (x : Int) : clamp x ≤ 100 :=
  max_le (by norm_num) (min_le_left 100 x)

theorem clamp_eq_self (x : Int) (h0 : 0 ≤ x) (h1 : x ≤ 100) : clamp x = x := by
  unfold clamp
  rw [min_eq_right h1, max_eq_right h0]

theorem clamp_idem (x : Int) : clamp (clamp x) = clamp x :=
  clamp_eq_self _ (clamp_nonneg x) (clamp_le_100 x)

theorem find?_map_congr {α : Type} (l : List α) (pr : α → Bool) (g : α → α)
    (h : ∀ a, pr (g a) = pr a) :
    (l.map g).find? pr = (l.find? pr).map g := by
  induction l with
  | nil => rfl
  | cons a l ih =>
    simp only [List.map_cons, List.find?_cons, h a]
    cases hpa : pr a
    · simpa using ih
    · rfl

theorem findPet_updatePet (db : Db) (id : Nat) (f : Pet → Pet) (now : Nat)
    (hf : ∀ p, (f p).id = p.id) :
    findPet (updatePet db id f now) id =
      (findPet db id).map (fun p => { f p with last_seen := now }) := by
  unfold findPet updatePet
  have hpr : ∀ p : Pet,
      (((if p.id == id then { f p with last_seen := now } else p)).id == id) = (p.id == id) := by
    intro p
    by_cases hp : p.id = id
    · simp [hp, hf]
    · simp [hp]
  rw [find?_map_congr _ _ _ hpr]
  cases hfind : db.pets.find? (fun p => p.id == id) with
  | none => rfl
  | some p =>
    have hpid : p.id = id := by
      have h2 := List.find?_some hfind
      simpa using h2
    simp [hpid]

theorem findPet_updatePet_none (db : Db) (id : Nat) (f : Pet → Pet) (now : Nat)
    (hf : ∀ p, (f p).id = p.id) (h : findPet db id = none) :
    findPet (updatePet db id f now) id = none := by
  rw [findPet_updatePet db id f now hf, h]
  rfl

theorem mem_filterMap_world_code (db : Db) (p : Pet) (c : String)
    (hm : p ∈ db.pets) (hc : p.world_code = some c) : c ∈ existingCodes db := by
  unfold existingCodes
  exact List.mem_filterMap.mpr ⟨p, hm, hc⟩

theorem find?_id_of_mem_nodup (l : List Pet) (p : Pet) (hm : p ∈ l)
    (hn : (l.map Pet.id).Nodup) : l.find? (fun q => q.id == p.id) = some p := by
  induction l with
  | nil => cases hm
  | cons a l ih =>
    rcases List.mem_cons.mp hm with rfl | hm'
    · simp [List.find?_cons]
    · have ha : (a.id == p.id) = false := by
        by_cases hid : a.id = p.id
        · exfalso
          have hpm : p.id ∈ l.map Pet.id := List.mem_map.mpr ⟨p, hm', rfl⟩
          rw [← hid] at hpm
          exact (List.nodup_cons.mp (by simpa using hn)).1 hpm
        · simp only [beq_eq_false_iff_ne, ne_eq]
          exact hid
      simp only [List.find?_cons, ha]
      exact ih hm' (List.nodup_cons.mp (by simpa using hn)).2

theorem genLoopGo_ok (db : Db) (rng : Nat → Nat) :
    ∀ fuel k c, genLoopGo db rng k fuel = .ok c →
      c ∉ existingCodes db ∧ ∃ j, c = genCode (fun i => rng (6 * j + i)) := by
  intro fuel
  induction fuel with
  | zero => intro k c h; simp [genLoopGo] at h
  | succ fuel ih =>
    intro k c h
    unfold genLoopGo at h
    by_cases hc : (existingCodes db).contains (genCode fun i => rng (6 * k + i)) = true
    · rw [if_pos hc] at h
      exact ih (k + 1) c h
    · rw [if_neg hc] at h
      have hce : genCode (fun i => rng (6 * k + i)) = c := by
        simpa using h
      refine ⟨?_, k, hce.symm⟩
      rw [← hce]
      simpa using hc

theorem genLoopGo_error_iff (db : Db) (rng : Nat → Nat) :
    ∀ fuel k, (genLoopGo db rng k fuel = .error .generationExhausted ↔
      ∀ j, k ≤ j → j < k + fuel → genCode (fun i => rng (6 * j + i)) ∈ existingCodes db) := by
  intro fuel
  induction fuel with
  | zero =>
    intro k
    constructor
    · intro _ j h1 h2
      omega
    · intro _
      rfl
  | succ fuel ih =>
    intro k
    unfold genLoopGo
    by_cases hc : (existingCodes db).contains (genCode fun i => rng (6 * k + i)) = true
    · rw [if_pos hc, ih (k + 1)]
      constructor
      · intro hall j hj1 hj2
        rcases Nat.eq_or_lt_of_le hj1 with rfl | hj1'
        · simpa using hc
        · exact hall j hj1' (by omega)
      · intro hall j hj1 hj2
        exact hall j (by omega) (by omega)
    · rw [if_neg hc]
      constructor
      · intro h
        simp at h
      · intro hall
        exfalso
        apply hc
        simpa using hall k le_rfl (by omega)

theorem generateWorldCode_fresh (db : Db) (rng : Nat → Nat) (c : String)
    (h : generateWorldCode db rng = .ok c) :
    c ∉ existingCodes db ∧ ∃ j, c = genCode (fun i => rng (6 * j + i)) :=
  genLoopGo_ok db rng 100 0 c h

theorem genCode_length (f : Nat → Nat) : (genCode f).length = 7 := rfl

theorem genCode_dash (f : Nat → Nat) : (genCode f).data.getD 4 ' ' = '-' := rfl

theorem worldChars_getD_mem (n : Nat) : worldChars.getD (n % 32) 'A' ∈ worldChars := by
  have hlt : n % 32 < worldChars.length := Nat.mod_lt n (by decide)
  rw [List.getD_eq_getElem _ _ hlt]
  exact List.getElem_mem hlt

theorem genCode_chars (f : Nat → Nat) :
    ∀ i ∈ ([0, 1, 2, 3, 5, 6] : List Nat), (genCode f).data.getD i ' ' ∈ worldChars := by
  intro i hi
  fin_cases hi <;> exact worldChars_getD_mem _

theorem openWorld_open_ok (db : Db) (id : Nat) (rng : Nat → Nat) (t : Nat) (c : String)
    (hgen : generateWorldCode db rng = .ok c) :
    openWorld id true rng t db =
      ⟨updatePet db id (fun p => { p with world_open := true, world_code := some c }) t,
       .ok200, (findPet db id).map (fun _ => c)⟩ := by
  have hfp := findPet_updatePet db id
      (fun p => { p with world_open := true, world_code := some c }) t (fun _ => rfl)
  simp only [openWorld, if_true, hgen, Except.map]
  rw [hfp]
  cases hf : findPet db id <;> simp [hf]

theorem openWorld_code_of_some (db : Db) (id : Nat) (rng : Nat → Nat) (t : Nat) (c : String)
    (hc : (openWorld id true rng t db).world_code = some c) :
    generateWorldCode db rng = .ok c ∧
    (openWorld id true rng t db).db =
      updatePet db id (fun p => { p with world_open := true, world_code := some c }) t ∧
    (findPet db id).isSome := by
  cases hgen : generateWorldCode db rng with
  | error e =>
    exfalso
    cases e
    unfold openWorld at hc
    simp only [if_true, hgen, Except.map] at hc
    simp at hc
  | ok c0 =>
    have hopen := openWorld_open_ok db id rng t c0 hgen
    rw [hopen] at hc ⊢
    cases hf : findPet db id with
    | none => rw [hf] at hc; simp at hc
    | some p0 =>
      rw [hf] at hc
      simp at hc
      subst hc
      simp

/-- The CHECK constraints of the `pets` table on the four stats. -/
def statsInRange (p : Pet) : Prop :=
  0 ≤ p.hunger ∧ p.hunger ≤ 100 ∧ 0 ≤ p.happiness ∧ p.happiness ≤ 100 ∧
  0 ≤ p.energy ∧ p.energy ≤ 100 ∧ 0 ≤ p.hygiene ∧ p.hygiene ≤ 100

instance (p : Pet) : Decidable (statsInRange p) := by
  unfold statsInRange
  infer_instance

theorem statsInRange_applyDelta (d : ActionDelta) (t : Nat) (p : Pet)
    (hr : statsInRange p) : statsInRange (applyDelta d t p) := by
  obtain ⟨h1, h2, h3, h4, h5, h6, h7, h8⟩ := hr
  unfold statsInRange applyDelta
  refine ⟨?_, ?_, ?_, ?_, ?_, ?_, ?_, ?_⟩ <;> dsimp only
  · cases d.hunger with | none => exact h1 | some v => exact clamp_nonneg _
  · cases d.hunger with | none => exact h2 | some v => exact clamp_le_100 _
  · cases d.happiness with | none => exact h3 | some v => exact clamp_nonneg _
  · cases d.happiness with | none => exact h4 | some v => exact clamp_le_100 _
  · cases d.energy with | none => exact h5 | some v => exact clamp_nonneg _
  · cases d.energy with | none => exact h6 | some v => exact clamp_le_100 _
  · cases d.hygiene with | none => exact h7 | some v => exact clamp_nonneg _
  · cases d.hygiene with | none => exact h8 | some v => exact clamp_le_100 _

theorem petAction_ok (db : Db) (id : Nat) (t : Nat) (p : Pet) (a : String) (d : ActionDelta)
    (hp : findPet db id = some p) (ht : actionTable a = some d) :
    petAction id a t db =
      ⟨{ updatePet db id (applyDelta d t) t with
           memories := db.memories ++ [⟨id, "action", actionMemoryContent a, t⟩] },
       .ok200, some { applyDelta d t p with last_seen := t }⟩ := by
  have hfp := findPet_updatePet db id (applyDelta d t) t (fun q => rfl)
  simp only [petAction, ht, hfp, hp]
  rfl

/-- Sample data used by the witness theorems. -/
def samplePet : Pet :=
  { id := 1, user_id := "u1", name := "Buddy",
    hunger := 50, happiness := 50, energy := 50, hygiene := 50, sprite := 0,
    world_code := none, world_open := false, visits_count := 0,
    last_seen := 0, last_fed := 0, last_played := 0, last_cleaned := 0, last_slept := 0 }

/-- Sample one-pet database used by the witness theorems. -/
def sampleDb : Db :=
  { pets := [samplePet], memories := [], ai_brain := [], next_pet_id := 2 }

/-- Claim C1: for every pet whose four stats are in [0,100], applying any
valid action through the action endpoint yields a pet whose four stats are
all still in [0,100]. -/
theorem action_preserves_stat_bounds (db : Db) (id : Nat) (a : String) (t : Nat)
    (p p' : Pet) (hp : findPet db id = some p) (hr : statsInRange p)
    (hres : (petAction id a t db).pet = some p') : statsInRange p' := by
  cases ht : actionTable a with
  | none =>
    rw [petAction, ht] at hres
    simp at hres
  | some d =>
    have hfp := findPet_updatePet db id (applyDelta d t) t (fun q => rfl)
    rw [petAction, ht] at hres
    simp only [hfp, hp, Option.map_some] at hres
    have hp' : p' = { applyDelta d t p with last_seen := t } := by
      simpa using hres.symm
    subst hp'
    exact statsInRange_applyDelta d t p hr

/-- Witness for C1 at a concrete feed on the sample database. -/
theorem action_preserves_stat_bounds_witness :
    findPet sampleDb 1 = some samplePet ∧ statsInRange samplePet ∧
    (petAction 1 "feed" 0 sampleDb).pet = some { samplePet with hunger := 80, last_fed := 0 } ∧
    statsInRange { samplePet with hunger := 80, last_fed := 0 } :=
  ⟨by decide, by decide, by decide,
   action_preserves_stat_bounds sampleDb 1 "feed" 0 samplePet _
     (by decide) (by decide) (by decide)⟩

/-- Claim C2: on an existing pet, each valid action applies exactly the fixed
delta table (feed +30 hunger, play +20 happiness / -10 energy, clean +40
hygiene, sleep +30 energy), clamps to [0,100], sets the corresponding
last_* timestamp, and appends exactly one memory describing the action; in
particular feeding at hunger 90 gives hunger 100. -/
theorem action_delta_contract (db : Db) (id : Nat) (t : Nat) (p : Pet)
    (hp : findPet db id = some p) :
    ((petAction id "feed" t db).status = .ok200 ∧
     (petAction id "feed" t db).pet =
       some { p with hunger := clamp (p.hunger + 30), last_fed := t, last_seen := t } ∧
     (petAction id "feed" t db).db.memories =
       db.memories ++ [⟨id, "action", "Owner fed me!", t⟩]) ∧
    ((petAction id "play" t db).status = .ok200 ∧
     (petAction id "play" t db).pet =
       some { p with happiness := clamp (p.happiness + 20), energy := clamp (p.energy + (-10)),
                     last_played := t, last_seen := t } ∧
     (petAction id "play" t db).db.memories =
       db.memories ++ [⟨id, "action", "Owner played with me!", t⟩]) ∧
    ((petAction id "clean" t db).status = .ok200 ∧
     (petAction id "clean" t db).pet =
       some { p with hygiene := clamp (p.hygiene + 40), last_cleaned := t, last_seen := t } ∧
     (petAction id "clean" t db).db.memories =
       db.memories ++ [⟨id, "action", "Owner cleaned me!", t⟩]) ∧
    ((petAction id "sleep" t db).status = .ok200 ∧
     (petAction id "sleep" t db).pet =
       some { p with energy := clamp (p.energy + 30), last_slept := t, last_seen := t } ∧
     (petAction id "sleep" t db).db.memories =
       db.memories ++ [⟨id, "action", "Owner put to sleep me!", t⟩]) ∧
    (p.hunger = 90 →
      (petAction id "feed" t db).pet =
        some { p with hunger := 100, last_fed := t, last_seen := t }) := by
  have hfeed := petAction_ok db id t p "feed" { hunger := some 30, fed := true } hp rfl
  have hplay := petAction_ok db id t p "play"
    { happiness := some 20, energy := some (-10), played := true } hp rfl
  have hclean := petAction_ok db id t p "clean" { hygiene := some 40, cleaned := true } hp rfl
  have hsleep := petAction_ok db id t p "sleep" { energy := some 30, slept := true } hp rfl
  simp only [hfeed, hplay, hclean, hsleep]
  refine ⟨⟨?_, ?_, ?_⟩, ⟨?_, ?_, ?_⟩, ⟨?_, ?_, ?_⟩, ⟨?_, ?_, ?_⟩, ?_⟩
  all_goals try trivial
  intro h90
  have hcl : clamp (p.hunger + 30) = 100 := by
    rw [h90]
    decide
  simp [applyDelta, hcl]

/-- Witness for C2 on the sample database with hunger 90. -/
theorem action_delta_contract_witness :
    findPet { sampleDb with pets := [{ samplePet with hunger := 90 }] } 1 =
      some { samplePet with hunger := 90 } ∧
    (petAction 1 "feed" 3 { sampleDb with pets := [{ samplePet with hunger := 90 }] }).pet =
      some { samplePet with hunger := 100, last_fed := 3, last_seen := 3 } :=
  ⟨by decide,
   ((action_delta_contract { sampleDb with pets := [{ samplePet with hunger := 90 }] } 1 3
      { samplePet with hunger := 90 } (by decide)).2.2.2.2 (by decide)).trans (by decide)⟩

/-- Claim C9: an action name outside {feed, play, clean, sleep} is answered
with 400 Invalid action, and the database (stats, timestamps, memories) is
untouched. -/
theorem action_invalid_input (id : Nat) (a : String) (t : Nat) (db : Db)
    (h : a ∉ (["feed", "play", "clean", "sleep"] : List String)) :
    petAction id a t db = ⟨db, .badRequest400, none⟩ := by
  simp only [List.mem_cons, not_or] at h
  obtain ⟨h1, h2, h3, h4, _⟩ := h
  unfold petAction actionTable
  simp [h1, h2, h3, h4]

/-- Witness for C9 at the unknown action name dance. -/
theorem action_invalid_input_witness :
    "dance" ∉ (["feed", "play", "clean", "sleep"] : List String) ∧
    petAction 1 "dance" 0 sampleDb = ⟨sampleDb, .badRequest400, none⟩ :=
  ⟨by decide, action_invalid_input 1 "dance" 0 sampleDb (by decide)⟩

/-- Claim C10: a pet created on first access starts with all four stats 50,
name Buddy, sprite 0, and exactly one creation memory with content Born into
this world. -/
theorem create_pet_initial_state (userId : String) (t : Nat) (db : Db)
    (h : db.pets.find? (fun p => p.user_id == userId) = none) :
    ∃ p, (getOrCreatePet userId t db).pet = some p ∧
      p.hunger = 50 ∧ p.happiness = 50 ∧ p.energy = 50 ∧ p.hygiene = 50 ∧
      p.name = "Buddy" ∧ p.sprite = 0 ∧
      (getOrCreatePet userId t db).db.memories =
        db.memories ++ [⟨p.id, "action", "Born into this world!", t⟩] := by
  unfold getOrCreatePet
  rw [h]
  exact ⟨_, rfl, rfl, rfl, rfl, rfl, rfl, rfl, rfl⟩

/-- Witness for C10 on the empty database. -/
theorem create_pet_initial_state_witness :
    (Db.mk [] [] [] 1).pets.find? (fun p => p.user_id == "u9") = none ∧
    ∃ p, (getOrCreatePet "u9" 0 (Db.mk [] [] [] 1)).pet = some p ∧
      p.hunger = 50 ∧ p.happiness = 50 ∧ p.energy = 50 ∧ p.hygiene = 50 ∧
      p.name = "Buddy" ∧ p.sprite = 0 ∧
      (getOrCreatePet "u9" 0 (Db.mk [] [] [] 1)).db.memories =
        (Db.mk [] [] [] 1).memories ++ [⟨p.id, "action", "Born into this world!", 0⟩] :=
  ⟨by decide, create_pet_initial_state "u9" 0 (Db.mk [] [] [] 1) (by decide)⟩

theorem syncPet_db (id : Nat) (hu ha en hy : Int) (t : Nat) (db : Db) :
    (syncPet id hu ha en hy t db).db =
      updatePet db id
        (fun p => { p with hunger := clamp hu, happiness := clamp ha,
                           energy := clamp en, hygiene := clamp hy }) t := by
  unfold syncPet
  cases findPet db id <;> rfl

/-- Counterexample to claim C5 as stated: two syncs in a row with identical
stat values leave a different stored state than one sync, because the
update trigger advances `last_seen` at the second write. -/
theorem sync_not_idempotent_cex :
    (syncPet 1 50 50 50 50 2 (syncPet 1 50 50 50 50 1 sampleDb).db).db ≠
      (syncPet 1 50 50 50 50 1 sampleDb).db := by
  decide

/-- Claim C5 as amended: sync stores the clamp of each submitted stat; a
second sync with the same four values changes nothing except the matched
rows' `last_seen` (set by the trigger to the second sync's time); two syncs
at the same timestamp are fully idempotent. -/
theorem sync_clamps_and_idem (id : Nat) (hu ha en hy : Int) (t1 t2 : Nat) (db : Db) (p : Pet)
    (hp : findPet db id = some p) :
    findPet (syncPet id hu ha en hy t1 db).db id =
      some { p with hunger := clamp hu, happiness := clamp ha, energy := clamp en,
                    hygiene := clamp hy, last_seen := t1 } ∧
    (syncPet id hu ha en hy t2 (syncPet id hu ha en hy t1 db).db).db.pets =
      (syncPet id hu ha en hy t1 db).db.pets.map
        (fun q => if q.id == id then { q with last_seen := t2 } else q) ∧
    (t2 = t1 → (syncPet id hu ha en hy t2 (syncPet id hu ha en hy t1 db).db).db =
      (syncPet id hu ha en hy t1 db).db) := by
  have hfp := findPet_updatePet db id
      (fun q => { q with hunger := clamp hu, happiness := clamp ha,
                         energy := clamp en, hygiene := clamp hy }) t1 (fun q => rfl)
  refine ⟨?_, ?_, ?_⟩
  · rw [syncPet_db, hfp, hp]
    rfl
  · rw [syncPet_db, syncPet_db]
    unfold updatePet
    simp only [List.map_map]
    refine List.map_congr_left ?_
    intro q hq
    by_cases hqid : q.id = id
    · simp [hqid]
    · simp [hqid]
  · intro ht
    subst ht
    rw [syncPet_db, syncPet_db]
    unfold updatePet
    simp only [List.map_map]
    have : ∀ q ∈ db.pets,
        ((fun p => if p.id == id then
            { p with hunger := clamp hu, happiness := clamp ha, energy := clamp en,
                     hygiene := clamp hy, last_seen := t2 } else p) ∘
         (fun p => if p.id == id then
            { p with hunger := clamp hu, happiness := clamp ha, energy := clamp en,
                     hygiene := clamp hy, last_seen := t2 } else p)) q =
        (fun p => if p.id == id then
            { p with hunger := clamp hu, happiness := clamp ha, energy := clamp en,
                     hygiene := clamp hy, last_seen := t2 } else p) q := by
      intro q hq
      by_cases hqid : q.id = id
      · simp [hqid]
      · simp [hqid]
    rw [List.map_congr_left this]

/-- Witness for the amended C5 at concrete values. -/
theorem sync_clamps_and_idem_witness :
    findPet sampleDb 1 = some samplePet ∧
    findPet (syncPet 1 120 (-5) 30 70 4 sampleDb).db 1 =
      some { samplePet with hunger := 100, happiness := 0, energy := 30,
                            hygiene := 70, last_seen := 4 } ∧
    (syncPet 1 120 (-5) 30 70 4 (syncPet 1 120 (-5) 30 70 4 sampleDb).db).db =
      (syncPet 1 120 (-5) 30 70 4 sampleDb).db := by
  have h := sync_clamps_and_idem 1 120 (-5) 30 70 4 4 sampleDb samplePet (by decide)
  exact ⟨by decide, h.1.trans (by decide), h.2.2 rfl⟩

/-- Counterexample to claim C6 as stated: with only pet 1 present, acting on
pet 2 yields 500 (foreign-key violation on the memory insert), and renaming
pet 2 yields 200 with an empty body; neither is 404. -/
theorem missing_pet_not_404_cex :
    (petAction 2 "feed" 0 sampleDb).status = .serverError500 ∧
    (renamePet 2 "Rex" 0 sampleDb).status = .ok200 ∧
    (renamePet 2 "Rex" 0 sampleDb).pet = none ∧
    (petAction 2 "feed" 0 sampleDb).status ≠ .notFound404 ∧
    (renamePet 2 "Rex" 0 sampleDb).status ≠ .notFound404 := by
  decide

/-- Claim C6 as amended: for a pet identifier matching no existing pet, sync
and talk fail with 404; a valid action fails with 500 (the memory insert
violates the foreign key), and a valid rename succeeds with 200 and an
empty body. -/
theorem missing_pet_statuses (id : Nat) (db : Db) (t : Nat) (a nm msg : String)
    (ol : Option String) (hu ha en hy : Int)
    (hnone : findPet db id = none)
    (hact : (actionTable a).isSome = true)
    (hnm1 : nm.length ≠ 0) (hnm2 : nm.length ≤ 20) :
    (syncPet id hu ha en hy t db).status = .notFound404 ∧
    (talkPet id msg ol t db).status = .notFound404 ∧
    (petAction id a t db).status = .serverError500 ∧
    (renamePet id nm t db).status = .ok200 ∧
    (renamePet id nm t db).pet = none := by
  refine ⟨?_, ?_, ?_, ?_, ?_⟩
  · simp only [syncPet, hnone]
  · simp only [talkPet, hnone]
  · cases ht : actionTable a with
    | none => rw [ht] at hact; simp at hact
    | some d =>
      have h1 := findPet_updatePet_none db id (applyDelta d t) t (fun q => rfl) hnone
      simp only [petAction, ht, h1]
  · have hcond : (decide (nm.length = 0) || decide (20 < nm.length)) = false := by
      simp only [Bool.or_eq_false_iff, decide_eq_false_iff_not]
      exact ⟨hnm1, by omega⟩
    simp only [renamePet, hcond, Bool.false_eq_true, if_false]
  · have hcond : (decide (nm.length = 0) || decide (20 < nm.length)) = false := by
      simp only [Bool.or_eq_false_iff, decide_eq_false_iff_not]
      exact ⟨hnm1, by omega⟩
    have h1 := findPet_updatePet_none db id (fun p => { p with name := nm }) t
      (fun q => rfl) hnone
    simp only [renamePet, hcond, Bool.false_eq_true, if_false, h1]

/-- Witness for the amended C6 at concrete values. -/
theorem missing_pet_statuses_witness :
    findPet sampleDb 2 = none ∧
    (syncPet 2 1 2 3 4 0 sampleDb).status = .notFound404 ∧
    (talkPet 2 "hi" none 0 sampleDb).status = .notFound404 ∧
    (petAction 2 "feed" 0 sampleDb).status = .serverError500 ∧
    (renamePet 2 "Rex" 0 sampleDb).status = .ok200 ∧
    (renamePet 2 "Rex" 0 sampleDb).pet = none := by
  have h := missing_pet_statuses 2 sampleDb 0 "feed" "Rex" "hi" none 1 2 3 4
    (by decide) (by decide) (by decide) (by decide)
  exact ⟨by decide, h.1, h.2.1, h.2.2.1, h.2.2.2.1, h.2.2.2.2⟩

/-- Claim C4: the world-code generation loop checks a bounded number of
candidates (100) and fails with GenerationExhausted exactly when every
checked candidate collides with a stored code; it never loops forever. -/
theorem world_code_generation_bounded (db : Db) (rng : Nat → Nat) :
    generateWorldCode db rng = .error .generationExhausted ↔
      ∀ k < 100, genCode (fun i => rng (6 * k + i)) ∈ existingCodes db := by
  rw [generateWorldCode, genLoopGo_error_iff db rng 100 0]
  constructor
  · intro h k hk
    exact h k (Nat.zero_le k) (by omega)
  · intro h j hj1 hj2
    exact h j (by omega)

/-- Counterexample to claim C3 as stated: a stored world code has length 7
(six alphabet characters plus the dash), not 6. -/
theorem world_code_length_cex :
    (openWorld 1 true (fun _ => 0) 5 sampleDb).world_code = some "AAAA-AA" ∧
    ("AAAA-AA" : String).length ≠ 6 := by
  decide

/-- Claim C3 as amended: every code stored by a successful open is a
7-character string in XXXX-XX format, its six non-dash characters drawn from
the uppercase-letter-and-digit alphabet excluding 0, 1, O, I, and the stored
code differs from every other pet's world_code. -/
theorem world_code_format_and_unique (db : Db) (id : Nat) (rng : Nat → Nat) (t : Nat)
    (c : String) (hc : (openWorld id true rng t db).world_code = some c) :
    c.length = 7 ∧ c.data.getD 4 ' ' = '-' ∧
    (∀ i ∈ ([0, 1, 2, 3, 5, 6] : List Nat), c.data.getD i ' ' ∈ worldChars) ∧
    ∀ q ∈ (openWorld id true rng t db).db.pets, q.id ≠ id → q.world_code ≠ some c := by
  obtain ⟨hgen, hdb, hfind⟩ := openWorld_code_of_some db id rng t c hc
  obtain ⟨hfresh, j, hj⟩ := generateWorldCode_fresh db rng c hgen
  refine ⟨hj ▸ genCode_length _, hj ▸ genCode_dash _, hj ▸ genCode_chars _, ?_⟩
  intro q hq hqid
  rw [hdb] at hq
  unfold updatePet at hq
  simp only [List.mem_map] at hq
  obtain ⟨q0, hq0, hgq⟩ := hq
  by_cases h0 : q0.id = id
  · exfalso
    apply hqid
    rw [← hgq]
    simp [h0]
  · rw [← hgq]
    simp only [h0, beq_iff_eq, if_false]
    intro hqc
    exact hfresh (mem_filterMap_world_code db q0 c hq0 hqc)

/-- Witness for the amended C3 at a concrete open on the sample database. -/
theorem world_code_format_and_unique_witness :
    (openWorld 1 true (fun _ => 0) 5 sampleDb).world_code = some "AAAA-AA" ∧
    (("AAAA-AA" : String).length = 7 ∧ ("AAAA-AA" : String).data.getD 4 ' ' = '-' ∧
     (∀ i ∈ ([0, 1, 2, 3, 5, 6] : List Nat),
        ("AAAA-AA" : String).data.getD i ' ' ∈ worldChars) ∧
     ∀ q ∈ (openWorld 1 true (fun _ => 0) 5 sampleDb).db.pets,
        q.id ≠ 1 → q.world_code ≠ some "AAAA-AA") :=
  ⟨by decide, world_code_format_and_unique sampleDb 1 (fun _ => 0) 5 "AAAA-AA" (by decide)⟩

/-- Claim C7: opening a world twice in a row stores, at the second open, a
fresh code different from the first, and the first code no longer resolves:
visiting it afterwards yields 404. -/
theorem open_world_twice (db : Db) (id : Nat) (rng1 rng2 : Nat → Nat) (t1 t2 t3 : Nat)
    (c1 c2 : String)
    (h1 : (openWorld id true rng1 t1 db).world_code = some c1)
    (h2 : (openWorld id true rng2 t2 (openWorld id true rng1 t1 db).db).world_code = some c2) :
    c2 ≠ c1 ∧
    (visitWorld c1 t3
      (openWorld id true rng2 t2 (openWorld id true rng1 t1 db).db).db).status =
      .notFound404 := by
  obtain ⟨hgen1, hdb1, hfind1⟩ := openWorld_code_of_some db id rng1 t1 c1 h1
  obtain ⟨hfresh1, j1, hj1⟩ := generateWorldCode_fresh db rng1 c1 hgen1
  obtain ⟨hgen2, hdb2, hfind2⟩ :=
    openWorld_code_of_some (openWorld id true rng1 t1 db).db id rng2 t2 c2 h2
  obtain ⟨hfresh2, j2, hj2⟩ :=
    generateWorldCode_fresh (openWorld id true rng1 t1 db).db rng2 c2 hgen2
  obtain ⟨p0, hp0⟩ := Option.isSome_iff_exists.mp hfind1
  have hfp1 := findPet_updatePet db id
      (fun p => { p with world_open := true, world_code := some c1 }) t1 (fun q => rfl)
  have hmem1 : c1 ∈ existingCodes (openWorld id true rng1 t1 db).db := by
    rw [hdb1]
    have hfound : findPet (updatePet db id
        (fun p => { p with world_open := true, world_code := some c1 }) t1) id =
        some { p0 with world_open := true, world_code := some c1, last_seen := t1 } := by
      rw [hfp1, hp0]
      rfl
    exact mem_filterMap_world_code _ _ c1 (List.mem_of_find?_eq_some hfound) rfl
  have hne : c2 ≠ c1 := by
    intro heq
    rw [heq] at hfresh2
    exact hfresh2 hmem1
  refine ⟨hne, ?_⟩
  have hnone : ((openWorld id true rng2 t2 (openWorld id true rng1 t1 db).db).db).pets.find?
      (fun p => p.world_code == some c1 && p.world_open) = none := by
    rw [List.find?_eq_none]
    intro q hq
    rw [hdb2] at hq
    unfold updatePet at hq
    simp only [List.mem_map] at hq
    obtain ⟨q1, hq1, hgq⟩ := hq
    have hqc : q.world_code ≠ some c1 := by
      by_cases hid1 : q1.id = id
      · rw [← hgq]
        simp only [hid1, beq_iff_eq, if_true]
        simp only [ne_eq, Option.some.injEq]
        exact fun hcc => hne hcc
      · rw [← hgq]
        simp only [hid1, beq_iff_eq, if_false]
        rw [hdb1] at hq1
        unfold updatePet at hq1
        simp only [List.mem_map] at hq1
        obtain ⟨q0, hq0, hgq0⟩ := hq1
        by_cases hid0 : q0.id = id
        · exfalso
          apply hid1
          rw [← hgq0]
          simp [hid0]
        · rw [← hgq0]
          simp only [hid0, beq_iff_eq, if_false]
          intro hqc0
          exact hfresh1 (mem_filterMap_world_code db q0 c1 hq0 hqc0)
    intro hpred
    simp only [Bool.and_eq_true, beq_iff_eq] at hpred
    exact hqc hpred.1
  simp only [visitWorld, hnone]

/-- Witness for C7: two concrete consecutive opens on the sample database. -/
theorem open_world_twice_witness :
    (openWorld 1 true (fun _ => 0) 1 sampleDb).world_code = some "AAAA-AA" ∧
    (openWorld 1 true (fun _ => 1) 2
      (openWorld 1 true (fun _ => 0) 1 sampleDb).db).world_code = some "BBBB-BB" ∧
    ("BBBB-BB" : String) ≠ "AAAA-AA" ∧
    (visitWorld "AAAA-AA" 3
      (openWorld 1 true (fun _ => 1) 2
        (openWorld 1 true (fun _ => 0) 1 sampleDb).db).db).status = .notFound404 := by
  have h := open_world_twice sampleDb 1 (fun _ => 0) (fun _ => 1) 1 2 3 "AAAA-AA" "BBBB-BB"
    (by decide) (by decide)
  exact ⟨by decide, by decide, h.1, h.2⟩

/-- Claim C8: visiting a code yields 404 exactly when no pet holds that code
with its world open; when a matching open world exists, the visit returns
that pet's row and increments its visit counter by exactly one. -/
theorem visit_world_contract (code : String) (t : Nat) (db : Db)
    (hids : (db.pets.map Pet.id).Nodup) :
    ((visitWorld code t db).status = .notFound404 ↔
      ∀ p ∈ db.pets, ¬(p.world_code = some code ∧ p.world_open = true)) ∧
    (∀ p, (visitWorld code t db).pet = some p →
      p ∈ db.pets ∧ p.world_code = some code ∧ p.world_open = true ∧
      findPet (visitWorld code t db).db p.id =
        some { p with visits_count := p.visits_count + 1, last_seen := t }) := by
  cases hf : db.pets.find? (fun p => p.world_code == some code && p.world_open) with
  | none =>
    constructor
    · constructor
      · intro _ p hp hpred
        have := List.find?_eq_none.mp hf p hp
        simp only [Bool.and_eq_true, beq_iff_eq] at this
        exact this ⟨hpred.1, hpred.2⟩
      · intro _
        simp only [visitWorld, hf]
    · intro p hp
      simp only [visitWorld, hf] at hp
      exact absurd hp (by simp)
  | some pstar =>
    have hmem : pstar ∈ db.pets := List.mem_of_find?_eq_some hf
    have hpred := List.find?_some hf
    simp only [Bool.and_eq_true, beq_iff_eq] at hpred
    constructor
    · constructor
      · intro hst
        simp only [visitWorld, hf] at hst
        exact absurd hst (by simp)
      · intro hall
        exact absurd ⟨hpred.1, hpred.2⟩ (hall pstar hmem)
    · intro p hp
      simp only [visitWorld, hf] at hp
      have hpp : p = pstar := by simpa using hp.symm
      subst hpp
      refine ⟨hmem, hpred.1, hpred.2, ?_⟩
      simp only [visitWorld, hf]
      have hfp := findPet_updatePet db p.id
          (fun q => { q with visits_count := q.visits_count + 1 }) t (fun q => rfl)
      have hfind : findPet db p.id = some p := find?_id_of_mem_nodup db.pets p hmem hids
      unfold findPet at hfp hfind ⊢
      rw [hfp, hfind]
      rfl

/-- One-open-world sample database for the C8 witness. -/
def worldDb : Db :=
  { pets := [{ samplePet with world_code := some "AAAA-AA", world_open := true }],
    memories := [], ai_brain := [], next_pet_id := 2 }

/-- Witness for C8 on a database holding one open world. -/
theorem visit_world_contract_witness :
    (worldDb.pets.map Pet.id).Nodup ∧
    (((visitWorld "AAAA-AA" 7 worldDb).status = .notFound404 ↔
      ∀ p ∈ worldDb.pets, ¬(p.world_code = some "AAAA-AA" ∧ p.world_open = true)) ∧
     (∀ p, (visitWorld "AAAA-AA" 7 worldDb).pet = some p →
       p ∈ worldDb.pets ∧ p.world_code = some "AAAA-AA" ∧ p.world_open = true ∧
       findPet (visitWorld "AAAA-AA" 7 worldDb).db p.id =
         some { p with visits_count := p.visits_count + 1, last_seen := 7 })) :=
  ⟨by decide, visit_world_contract "AAAA-AA" 7 worldDb (by decide)⟩

end PixelBuddy
